import Mathlib

/-!
Verification of the portfolio summarization and advice-generation pipeline of
the AI Robo Advisory backend (`backend/main.py`, with record schemas from
`backend/schemas.py`).

Numeric model: Python floats are modelled by exact rationals (`ℚ`);
`round(x, n)` is Python's round-half-to-even, modelled exactly on `ℚ`.
Python strings are modelled by Lean `String`s, with the code-point level
operations (slicing, strip, startswith) defined on `String.data` so that they
match Python's code-point semantics.

External effects (the MongoDB lookups performed by the route handlers and the
single outbound HTTP call of `_hf_complete`) are modelled by explicit inputs:
the documents a lookup would return are passed as `Option` values, and the
network outcome of the HTTP call is passed as a `NetOutcome` value.  A Python
`AttributeError` escaping a route handler (an unhandled server failure) is
modelled by an explicit `Except.error` result.
-/

namespace RoboAdvisory

/-- Round-half-to-even of a rational to an integer, the rounding mode used by
Python's builtin `round`. -/
def roundHalfEven (q : ℚ) : ℤ :=
  let f : ℤ := ⌊q⌋
  if q - f < 1/2 then f
  else if (1:ℚ)/2 < q - f then f + 1
  else if f % 2 = 0 then f else f + 1

/-- Python's `round(q, 2)`. -/
def pyRound2 (q : ℚ) : ℚ := (roundHalfEven (q * 100) : ℚ) / 100

/-- A holding document, `Holding` in `backend/schemas.py`: symbol, quantity,
average cost and an optional sector.  `quantity` and `avg_cost` are floats in
the source, modelled as rationals. -/
structure Holding where
  symbol : String
  quantity : ℚ
  avg_cost : ℚ
  sector : Option String
deriving DecidableEq

/-- Cost basis of one holding, `h.get("avg_cost", 0) * h.get("quantity", 0)`
in `_summarize_portfolio`. -/
def Holding.value (h : Holding) : ℚ := h.avg_cost * h.quantity

/-- The sector key used for grouping, `h.get("sector") or "Other"`: a missing
sector (`None`) and the empty string are both falsy in Python, hence mapped to
the literal `"Other"`. -/
def Holding.sectorKey (h : Holding) : String :=
  match h.sector with
  | none => "Other"
  | some s => if s = "" then "Other" else s

/-- The raw sum `sum(h.get("avg_cost", 0) * h.get("quantity", 0) for h in
holdings)` before the `or 1.0` substitution. -/
def rawTotalCost (holdings : List Holding) : ℚ :=
  (holdings.map Holding.value).sum

/-- `total_cost = sum(...) or 1.0` in `_summarize_portfolio`: a zero float sum
is falsy, so it is replaced by `1.0`. -/
def totalCostOr1 (holdings : List Holding) : ℚ :=
  if rawTotalCost holdings = 0 then 1 else rawTotalCost holdings

/-- One step of building the `by_sector` dict:
`by_sector[sector] = by_sector.get(sector, 0.0) + value`.  Python dicts keep
insertion order, so the dict is modelled as an association list: an existing
key is updated in place, a new key is appended at the end. -/
def upsertAdd (m : List (String × ℚ)) (k : String) (v : ℚ) : List (String × ℚ) :=
  match m with
  | [] => [(k, v)]
  | (k', v') :: rest =>
      if k' = k then (k', v' + v) :: rest else (k', v') :: upsertAdd rest k v

/-- The `by_sector` dict of `_summarize_portfolio`: fold of `upsertAdd` over
the holdings in order. -/
def bySector (holdings : List Holding) : List (String × ℚ) :=
  holdings.foldl (fun m h => upsertAdd m h.sectorKey h.value) []

/-- An entry of `top_positions`: the dict with keys `symbol` and `weight`. -/
structure Position where
  symbol : String
  weight : ℚ
deriving DecidableEq

/-- The unsorted generator of position entries in `_summarize_portfolio`:
each holding is mapped to its symbol and rounded percentage weight. -/
def positionList (holdings : List Holding) (total_cost : ℚ) : List Position :=
  holdings.map (fun h => ⟨h.symbol, pyRound2 (h.value / total_cost * 100)⟩)

/-- Insertion step of the stable descending sort: the new element `x` (coming
later in the original order) is placed after every element of strictly larger
weight and after no element of smaller or equal weight. -/
def insertDesc (x : Position) : List Position → List Position
  | [] => [x]
  | y :: ys => if x.weight < y.weight then y :: insertDesc x ys else x :: y :: ys

/-- Stable sort by weight, descending — the semantics of Python's
`sorted(..., key=lambda x: x["weight"], reverse=True)`, which is guaranteed
stable (equal keys keep their original relative order). -/
def sortDesc : List Position → List Position
  | [] => []
  | x :: xs => insertDesc x (sortDesc xs)

/-- The summary dict returned by `_summarize_portfolio`. -/
structure PortfolioSummary where
  estimated_value : ℚ
  sector_allocation : List (String × ℚ)
  top_positions : List Position
  holdings_count : ℕ
deriving DecidableEq

/-- `_summarize_portfolio` of `backend/main.py`, applied to the `holdings`
list of the portfolio document (`portfolio.get("holdings", [])`). -/
def summarize_portfolio (holdings : List Holding) : PortfolioSummary :=
  let total_cost := totalCostOr1 holdings
  let sector_alloc :=
    (bySector holdings).map (fun kv => (kv.1, pyRound2 (kv.2 / total_cost * 100)))
  let top_positions := (sortDesc (positionList holdings total_cost)).take 5
  { estimated_value := pyRound2 total_cost
    sector_allocation := sector_alloc
    top_positions := top_positions
    holdings_count := holdings.length }

/-- Python's `"sep".join(lines)`. -/
def pyJoin (sep : String) : List String → String
  | [] => ""
  | [x] => x
  | x :: y :: xs => x ++ sep ++ pyJoin sep (y :: xs)

/-- Python's `s.startswith(p)`: code-point level comparison. -/
def pyStartsWith (s p : String) : Bool := p.data.isPrefixOf s.data

/-- Python's slice `s[n:]` (by code points). -/
def pyDrop (s : String) (n : ℕ) : String := ⟨s.data.drop n⟩

/-- Python's `s.strip()`: whitespace removed from both ends. -/
def pyStrip (s : String) : String :=
  ⟨((s.data.dropWhile Char.isWhitespace).reverse.dropWhile Char.isWhitespace).reverse⟩

/-- Decimal digit characters of `n`, least-significant first, computed with an
explicit fuel argument (the fuel only needs to dominate the digit count). -/
def digitCharsRevFuel : ℕ → ℕ → List Char
  | _, 0 => []
  | 0, _ + 1 => []
  | fuel + 1, n + 1 =>
      Char.ofNat (48 + (n + 1) % 10) :: digitCharsRevFuel fuel ((n + 1) / 10)

/-- Insert a comma after every third character of a least-significant-first
digit list, the grouping of Python's `,` format modifier. -/
def commaGroupRev : List Char → List Char
  | a :: b :: c :: d :: rest => a :: b :: c :: ',' :: commaGroupRev (d :: rest)
  | l => l

/-- Python's comma-grouped zero-decimal float format (the format spec used in
the advice header): round half to even to an integer, then render in decimal
with thousands separators. -/
def formatComma0f (q : ℚ) : String :=
  let n := roundHalfEven q
  let m := n.natAbs
  let ds := if m = 0 then ['0'] else digitCharsRevFuel m m
  (if n < 0 then "-" else "") ++ ⟨(commaGroupRev ds).reverse⟩

/-- A user document as read back from the `user` collection (fields from the
`User` schema that `_heuristic_advice` and the prompts consult).  The fields
are optional because the handlers access them with `dict.get`. -/
structure UserDoc where
  risk_tolerance : Option String
  goals : List String
deriving DecidableEq

/-- Header line of the heuristic advice, with the estimated value formatted as
currency. -/
def headerLine (value : ℚ) : String :=
  "Here’s a quick, personalized checkup on your portfolio (~$" ++
    formatComma0f value ++ ")."

/-- Diversification line when fewer than 4 sectors are present. -/
def fewSectorsLine : String :=
  "- Consider adding exposure to more sectors to reduce concentration risk."

/-- Diversification line when at least 4 sectors are present. -/
def diversifiedLine : String :=
  "- Sector mix looks reasonably diversified. Keep monitoring exposures."

/-- Concentration-trimming line, emitted when the top weight exceeds 25. -/
def trimmingLine : String :=
  "- Your largest position is above 25% of portfolio. Gradual trimming may reduce idiosyncratic risk."

/-- The conservative risk-alignment paragraph. -/
def conservativePara : String :=
  "- Favor high-quality bonds, broad-market ETFs, and larger cash buffer (6–12 months expenses)."

/-- The balanced risk-alignment paragraph. -/
def balancedPara : String :=
  "- A mix of equities and bonds (e.g., 60/40) with periodic rebalancing can fit your profile."

/-- The default (aggressive / unrecognized) risk-alignment paragraph. -/
def aggressivePara : String :=
  "- Tilt toward equities/alternatives with disciplined DCA and volatility management."

/-- The risk-alignment paragraph selected by the `if risk == ... / elif / else`
chain of `_heuristic_advice`. -/
def riskPara (risk : String) : String :=
  if risk = "conservative" then conservativePara
  else if risk = "balanced" then balancedPara
  else aggressivePara

/-- First fixed next-steps line. -/
def nextStepsLine1 : String :=
  "- Set an automatic monthly investment and rebalance quarterly."

/-- Second fixed next-steps line. -/
def nextStepsLine2 : String :=
  "- Map each goal to a time horizon and choose suitable vehicles (401k/IRA/taxable)."

/-- The `lines` list built by `_heuristic_advice`, in order. -/
def heuristic_advice_lines (user : UserDoc) (holdings : List Holding) : List String :=
  let risk := user.risk_tolerance.getD "balanced"
  let summary := summarize_portfolio holdings
  [headerLine summary.estimated_value, "Diversification:"] ++
  [if summary.sector_allocation.length < 4 then fewSectorsLine else diversifiedLine] ++
  (match summary.top_positions with
   | [] => []
   | t :: _ => if 25 < t.weight then [trimmingLine] else []) ++
  ["Risk alignment:", riskPara risk] ++
  ["Next steps:", nextStepsLine1, nextStepsLine2]

/-- `_heuristic_advice` of `backend/main.py`: the joined advice text. -/
def heuristic_advice (user : UserDoc) (holdings : List Holding) : String :=
  pyJoin "\n" (heuristic_advice_lines user holdings)

/-- The two response shapes `_hf_complete` accepts, plus everything else.
`listShape t` stands for a JSON list whose first element is an object carrying
a string `generated_text` field `t`; `dictShape t` for a single object with
that field. -/
inductive HFResponse where
  | listShape (generated_text : String)
  | dictShape (generated_text : String)
  | otherShape
deriving DecidableEq

/-- Outcome of the single outbound HTTP call: a parsed JSON body, or any
exception (network error, timeout, non-2xx status raised by
`raise_for_status`, undecodable body). -/
inductive NetOutcome where
  | success (data : HFResponse)
  | failure
deriving DecidableEq

/-- The response handling of `_hf_complete` (lines 143–148): the list shape
strips a leading prompt echo and whitespace, the dict shape is returned
verbatim, anything else yields the empty string. -/
def parseHFResponse (prompt : String) : HFResponse → String
  | .listShape full =>
      if pyStartsWith full prompt then pyStrip (pyDrop full prompt.data.length)
      else full
  | .dictShape full => full
  | .otherShape => ""

/-- Python truthiness of the `HF_API_TOKEN` environment value: `os.getenv`
returns `None` when unset, and `if not token` also treats the empty string as
missing. -/
def tokenFalsy : Option String → Bool
  | none => true
  | some t => t = ""

/-- `_hf_complete` of `backend/main.py`: with no usable credential the empty
string is returned immediately and no network call is made (so the result
cannot depend on `net`); otherwise the single call's outcome is parsed, and
any exception is swallowed into the empty string. -/
def hf_complete (token : Option String) (net : NetOutcome) (prompt : String) : String :=
  if tokenFalsy token then ""
  else
    match net with
    | .success data => parseHFResponse prompt data
    | .failure => ""

/-- Errors a route handler can finish with: an explicit `HTTPException`, or an
unhandled Python exception (a 500 to the client). -/
inductive ApiError where
  | badRequest (detail : String)
  | notFound (detail : String)
  | attributeError
deriving DecidableEq

/-- Rendering of a `PortfolioSummary` into the prompt text (the f-string
interpolation of the summary dict).  Its exact shape is irrelevant to every
claim; only the fact that the prompt is some function of the summary is. -/
def summaryText (s : PortfolioSummary) : String :=
  pyJoin ", " (s.sector_allocation.map Prod.fst) ++
    pyJoin ", " (s.top_positions.map Position.symbol)

/-- The prompt that `analyze` builds (lines 173–180). -/
def analyzeSysPrompt (user : UserDoc) (summary : PortfolioSummary) : String :=
  "You are a helpful, compliant financial robo-advisor. " ++
  "Speak clearly and concisely. Avoid guaranteeing returns. \n\n" ++
  "User risk tolerance: " ++ (user.risk_tolerance.getD "None") ++ "\n" ++
  "Goals: " ++ pyJoin ", " user.goals ++ "\n" ++
  "Portfolio summary: " ++ summaryText summary ++ "\n\n" ++
  "Provide a brief recommendation in 5-7 bullet points."

/-- `analyze` (`POST /advice/analyze`), after `user_id` validation: the user
and portfolio lookups are passed in as the documents they would return.
A missing user or portfolio is a 404; otherwise the advice text is the LLM
text if non-empty, else the heuristic text (`ai_text or heuristic`). -/
def analyze (userDoc : Option UserDoc) (portfolioDoc : Option (List Holding))
    (token : Option String) (net : NetOutcome) :
    Except ApiError (PortfolioSummary × String) :=
  match userDoc with
  | none => .error (.notFound "user not found")
  | some user =>
    match portfolioDoc with
    | none => .error (.notFound "portfolio not found")
    | some holdings =>
      let summary := summarize_portfolio holdings
      let heuristic := heuristic_advice user holdings
      let ai_text := hf_complete token net (analyzeSysPrompt user summary)
      .ok (summary, if ai_text = "" then heuristic else ai_text)

/-- The prompt that `chat` builds (lines 196–205). -/
def chatPrompt (user : UserDoc) (summary : PortfolioSummary) (message : String) : String :=
  "You are an AI robo-advisor. Use simple language, include disclaimers, " ++
  "and tailor guidance to risk tolerance." ++
  "\n\nRisk: " ++ (user.risk_tolerance.getD "None") ++ "\n" ++
  "Goals: " ++ pyJoin ", " user.goals ++ "\n" ++
  "Portfolio: " ++ summaryText summary ++ "\n\n" ++
  "User: " ++ message ++ "\nAssistant:"

/-- The canned fallback reply of `chat` (lines 208–212), used when the LLM
text is empty. -/
def chatFallback : String :=
  "Based on your profile, focus on staying diversified, rebalancing on a set schedule, " ++
  "and sizing positions according to your risk tolerance. Consider tax-advantaged accounts " ++
  "for long-term goals. I’m not a financial advisor; this is educational information."

/-- `chat` (`POST /chat`).  `userIdValid` is whether `ObjectId(msg.user_id)`
parses.  A missing portfolio document is replaced by `or {"holdings": []}`;
a missing user document makes the prompt construction evaluate
`None.get('risk_tolerance')`, raising an `AttributeError` that no handler
catches. -/
def chat (userIdValid : Bool) (userDoc : Option UserDoc)
    (portfolioDoc : Option (List Holding)) (token : Option String)
    (net : NetOutcome) (message : String) : Except ApiError String :=
  if userIdValid = false then .error (.badRequest "invalid user_id")
  else
    let holdings := portfolioDoc.getD []
    let summary := summarize_portfolio holdings
    match userDoc with
    | none => .error .attributeError
    | some user =>
      let ai_text := hf_complete token net (chatPrompt user summary message)
      .ok (if ai_text = "" then chatFallback else ai_text)

/-! Concrete inputs used by the scenario parts of the claims. -/

/-- The two-holding scenario input from the specification. -/
def demoHoldings : List Holding :=
  [{ symbol := "AAPL", quantity := 10, avg_cost := 150, sector := some "Tech" },
   { symbol := "BND", quantity := 20, avg_cost := 50, sector := some "Bonds" }]

/-- A sample user document. -/
def demoUser : UserDoc := { risk_tolerance := some "balanced", goals := ["retirement"] }

/-- A holdings list whose holdings all have zero average cost. -/
def zeroCostHoldings : List Holding :=
  [{ symbol := "XYZ", quantity := 2, avg_cost := 0, sector := none }]

/-- The sector allocation as the specification words it: group holdings by
sector and set each sector's allocation to
`round(sector_total / total_cost * 100, 2)`, where `total_cost` is the sum of
the holdings' cost bases (the claim assumes it positive, so no substitute
denominator appears here).  Stated from the spec, to be compared with the
code's `summarize_portfolio`. -/
def sectorAllocationSpec (holdings : List Holding) : List (String × ℚ) :=
  (bySector holdings).map
    (fun kv => (kv.1, pyRound2 (kv.2 / rawTotalCost holdings * 100)))

/-- The three fixed risk-alignment paragraphs of `_heuristic_advice`. -/
def riskParagraphs : List String := [conservativePara, balancedPara, aggressivePara]

/-! Shared lemmas about the rounding model. -/

/-- Rounding an integer returns it unchanged. -/
theorem roundHalfEven_intCast (n : ℤ) : roundHalfEven (n : ℚ) = n := by
  simp only [roundHalfEven, Int.floor_intCast]
  norm_num

/-- `pyRound2` of an integer is that integer. -/
theorem pyRound2_intCast (n : ℤ) : pyRound2 (n : ℚ) = n := by
  have h : ((n : ℚ)) * 100 = ((n * 100 : ℤ) : ℚ) := by push_cast; ring
  simp only [pyRound2, h, roundHalfEven_intCast]
  push_cast
  field_simp

/-- `pyRound2` of a natural number is that number. -/
theorem pyRound2_natCast (n : ℕ) : pyRound2 (n : ℚ) = n := by
  exact_mod_cast pyRound2_intCast n

/-- Round-half-to-even moves a rational by at most one half. -/
theorem abs_roundHalfEven_sub_le (q : ℚ) : |(roundHalfEven q : ℚ) - q| ≤ 1/2 := by
  have h0 : ((⌊q⌋ : ℚ)) ≤ q := Int.floor_le q
  have h1 : q < ⌊q⌋ + 1 := Int.lt_floor_add_one q
  simp only [roundHalfEven]
  split_ifs with hlt hgt heven <;>
    (push_cast; rw [abs_le]; constructor <;> linarith)

/-- `pyRound2` moves a rational by at most `1/200`. -/
theorem abs_pyRound2_sub_le (q : ℚ) : |pyRound2 q - q| ≤ 1/200 := by
  have h := abs_roundHalfEven_sub_le (q * 100)
  have hq : pyRound2 q - q = ((roundHalfEven (q * 100) : ℚ) - q * 100) / 100 := by
    simp only [pyRound2]; ring
  rw [hq, abs_div]
  have h100 : |(100 : ℚ)| = 100 := by norm_num
  rw [h100]
  linarith

/-! Shared lemmas about the sector grouping. -/

/-- Upserting adds the new value to the total of the dict's values. -/
theorem sum_snd_upsertAdd (m : List (String × ℚ)) (k : String) (v : ℚ) :
    ((upsertAdd m k v).map Prod.snd).sum = (m.map Prod.snd).sum + v := by
  induction m with
  | nil => simp [upsertAdd]
  | cons kv rest ih =>
      obtain ⟨k', v'⟩ := kv
      by_cases h : k' = k
      · simp [upsertAdd, h]; ring
      · simp [upsertAdd, h, ih]; ring

/-- Auxiliary: the fold that builds `by_sector` adds the holdings' total value
to the accumulator's total. -/
theorem sum_snd_bySector_fold (hs : List Holding) :
    ∀ acc : List (String × ℚ),
      (((hs.foldl (fun m h => upsertAdd m h.sectorKey h.value) acc)).map Prod.snd).sum
        = (acc.map Prod.snd).sum + rawTotalCost hs := by
  induction hs with
  | nil => intro acc; simp [rawTotalCost]
  | cons h t ih =>
      intro acc
      simp only [List.foldl_cons]
      rw [ih, sum_snd_upsertAdd]
      simp [rawTotalCost]
      ring

/-- The values of `by_sector` sum to the raw total cost. -/
theorem sum_snd_bySector (hs : List Holding) :
    ((bySector hs).map Prod.snd).sum = rawTotalCost hs := by
  have := sum_snd_bySector_fold hs []
  simpa [bySector] using this

/-- With a strictly positive raw total, the `or 1.0` substitution does not
fire. -/
theorem totalCostOr1_of_pos (hs : List Holding) (h : 0 < rawTotalCost hs) :
    totalCostOr1 hs = rawTotalCost hs := by
  simp [totalCostOr1, ne_of_gt h]

/-! Shared lemmas about the stable descending sort. -/

/-- Inserting permutes with consing. -/
theorem insertDesc_perm (x : Position) (l : List Position) :
    (insertDesc x l).Perm (x :: l) := by
  induction l with
  | nil => simp [insertDesc]
  | cons y ys ih =>
      simp only [insertDesc]
      split_ifs
      · exact ((ih.cons y).trans (List.Perm.swap x y ys))
      · exact List.Perm.refl _


/-- Sorting permutes the input. -/
theorem sortDesc_perm (l : List Position) : (sortDesc l).Perm l := by
  induction l with
  | nil => simp [sortDesc]
  | cons x xs ih =>
      exact (insertDesc_perm x (sortDesc xs)).trans (ih.cons x)

/-- Sorting preserves length. -/
theorem length_sortDesc (l : List Position) : (sortDesc l).length = l.length :=
  (sortDesc_perm l).length_eq

/-- Weight order used for descending sortedness. -/
def WeightGE (a b : Position) : Prop := b.weight ≤ a.weight

/-- Inserting into a descending-sorted list keeps it descending-sorted. -/
theorem pairwise_insertDesc (x : Position) (l : List Position)
    (hl : l.Pairwise WeightGE) : (insertDesc x l).Pairwise WeightGE := by
  induction l with
  | nil => simp [insertDesc, List.Pairwise]
  | cons y ys ih =>
      rw [List.pairwise_cons] at hl
      obtain ⟨hy, hys⟩ := hl
      simp only [insertDesc]
      split_ifs with h
      · rw [List.pairwise_cons]
        refine ⟨?_, ih hys⟩
        intro z hz
        have hz' : z = x ∨ z ∈ ys := by
          have := (insertDesc_perm x ys).mem_iff.mp hz
          simpa using this
        rcases hz' with rfl | hz'
        · exact le_of_lt h
        · exact hy z hz'
      · rw [List.pairwise_cons]
        refine ⟨?_, List.pairwise_cons.mpr ⟨hy, hys⟩⟩
        intro z hz
        rcases List.mem_cons.mp hz with rfl | hz'
        · exact le_of_not_lt h
        · exact le_trans (hy z hz') (le_of_not_lt h)

/-- The sorted list is descending in weight. -/
theorem pairwise_sortDesc (l : List Position) : (sortDesc l).Pairwise WeightGE := by
  induction l with
  | nil => simp [sortDesc, List.Pairwise]
  | cons x xs ih => exact pairwise_insertDesc x (sortDesc xs) ih

/-- Stability of the insertion step: for any fixed weight `w`, the elements of
weight `w` of `insertDesc x l` are those of `l`, with `x` prepended when `x`
itself has weight `w`. -/
theorem filter_insertDesc (x : Position) (l : List Position) (w : ℚ) :
    (insertDesc x l).filter (fun p => p.weight = w) =
      if x.weight = w then x :: l.filter (fun p => p.weight = w)
      else l.filter (fun p => p.weight = w) := by
  induction l with
  | nil => by_cases h : x.weight = w <;> simp [insertDesc, List.filter, h]
  | cons y ys ih =>
      simp only [insertDesc]
      by_cases hlt : x.weight < y.weight
      · rw [if_pos hlt]
        by_cases hxw : x.weight = w
        · by_cases hyw : y.weight = w
          · exact absurd hlt (by rw [hxw, hyw]; exact lt_irrefl w)
          · simp [List.filter_cons, hyw, hxw, ih]
        · simp [List.filter_cons, hxw, ih]
      · rw [if_neg hlt]
        by_cases hxw : x.weight = w
        · simp [List.filter_cons, hxw]
        · simp [List.filter_cons, hxw]

/-- Stability of the sort: for any fixed weight, filtering the sorted list to
that weight yields exactly the filter of the input, in input order. -/
theorem filter_sortDesc (l : List Position) (w : ℚ) :
    (sortDesc l).filter (fun p => p.weight = w) = l.filter (fun p => p.weight = w) := by
  induction l with
  | nil => simp [sortDesc]
  | cons x xs ih =>
      simp only [sortDesc]
      rw [filter_insertDesc]
      split_ifs with hxw
      · rw [List.filter_cons_of_pos (by simp [hxw]), ih]
      · rw [List.filter_cons_of_neg (by simp [hxw]), ih]

/-! Shared lemmas about strings. -/

/-- Appending strings appends their character lists. -/
theorem data_append_eq (a b : String) : (a ++ b).data = a.data ++ b.data := by
  cases a; cases b; rfl

/-- A non-empty join starts with its first element's characters. -/
theorem pyJoin_data_cons (sep x : String) (xs : List String) :
    ∃ t, (pyJoin sep (x :: xs)).data = x.data ++ t := by
  cases xs with
  | nil => exact ⟨[], by simp [pyJoin]⟩
  | cons y ys =>
      refine ⟨sep.data ++ (pyJoin sep (y :: ys)).data, ?_⟩
      simp [pyJoin, data_append_eq]

/-- The header line always starts with the character `H`. -/
theorem headerLine_data (v : ℚ) : ∃ t, (headerLine v).data = 'H' :: t := by
  have h : (headerLine v).data
      = ("Here’s a quick, personalized checkup on your portfolio (~$").data
        ++ ((formatComma0f v).data ++ (").").data) := by
    simp [headerLine, data_append_eq]
  have hlit : ("Here’s a quick, personalized checkup on your portfolio (~$").data
      = 'H' :: ("ere’s a quick, personalized checkup on your portfolio (~$").data := rfl
  rw [hlit, List.cons_append] at h
  exact ⟨_, h⟩

/-- The header line is distinct from any string starting with a dash, whatever
the formatted value is. -/
theorem headerLine_ne_of_dash (v : ℚ) (p : String) (hp : p.data.head? = some '-') :
    headerLine v ≠ p := by
  intro h
  obtain ⟨t, ht⟩ := headerLine_data v
  have hh : (headerLine v).data.head? = some 'H' := by rw [ht]; rfl
  rw [h, hp] at hh
  exact absurd (Option.some.inj hh) (by decide)

/-- The advice text always starts with the character `H` (the header line). -/
theorem heuristic_advice_data (u : UserDoc) (hs : List Holding) :
    ∃ t, (heuristic_advice u hs).data = 'H' :: t := by
  have hlines : ∃ rest, heuristic_advice_lines u hs
      = headerLine (summarize_portfolio hs).estimated_value :: rest := ⟨_, rfl⟩
  obtain ⟨rest, hrest⟩ := hlines
  obtain ⟨t, ht⟩ := pyJoin_data_cons "\n"
    (headerLine (summarize_portfolio hs).estimated_value) rest
  obtain ⟨r, hr⟩ := headerLine_data (summarize_portfolio hs).estimated_value
  exact ⟨r ++ t, by simp [heuristic_advice, hrest, ht, hr]⟩

/-! Claim theorems. -/

/-- C8: for the empty holdings list, the summarizer returns `holdings_count`
0, an empty `sector_allocation` mapping and an empty `top_positions` list. -/
theorem summary_of_empty_holdings :
    (summarize_portfolio []).holdings_count = 0 ∧
    (summarize_portfolio []).sector_allocation = [] ∧
    (summarize_portfolio []).top_positions = [] :=
  ⟨rfl, rfl, rfl⟩

/-- C9: with no credential configured (`HF_API_TOKEN` unset, or set to the
falsy empty string), the LLM client returns the empty string for every prompt
and independently of any network outcome — the guard returns before the
network call is made. -/
theorem hf_complete_no_credential (prompt : String) (net : NetOutcome) :
    hf_complete none net prompt = "" ∧ hf_complete (some "") net prompt = "" :=
  ⟨rfl, rfl⟩

/-- C9 witness: the theorem applied at a concrete prompt and network
outcome. -/
theorem hf_complete_no_credential_witness :
    hf_complete none NetOutcome.failure "any prompt" = "" :=
  (hf_complete_no_credential "any prompt" NetOutcome.failure).1

/-- C10: whenever the raw total cost is zero (empty list, or all-zero cost
bases), the reported `estimated_value` is `round(1.0, 2) = 1.0`, because the
same floored-to-1.0 `total_cost` variable is reused for the report. -/
theorem estimated_value_of_zero_cost (hs : List Holding)
    (h : rawTotalCost hs = 0) : (summarize_portfolio hs).estimated_value = 1 := by
  have ht : totalCostOr1 hs = 1 := by simp [totalCostOr1, h]
  show pyRound2 (totalCostOr1 hs) = 1
  rw [ht]
  simpa using pyRound2_natCast 1

/-- C10 witness: a non-empty holdings list with zero cost basis reports
estimated value 1. -/
theorem estimated_value_of_zero_cost_witness :
    rawTotalCost zeroCostHoldings = 0 ∧
    (summarize_portfolio zeroCostHoldings).estimated_value = 1 :=
  ⟨by simp [rawTotalCost, zeroCostHoldings, Holding.value],
   estimated_value_of_zero_cost zeroCostHoldings
     (by simp [rawTotalCost, zeroCostHoldings, Holding.value])⟩

/-- C5 counterexample: for the single-object response shape the client returns
`generated_text` verbatim even when it begins with the prompt, so the claimed
prompt-echo stripping does not happen there: with prompt `"P"` and a dict
response `"Pxyz"`, the result is `"Pxyz"`, not the stripped `"xyz"`. -/
theorem hf_dict_shape_not_stripped :
    pyStartsWith "Pxyz" "P" = true ∧
    hf_complete (some "tok") (NetOutcome.success (HFResponse.dictShape "Pxyz")) "P" = "Pxyz" ∧
    pyStrip (pyDrop "Pxyz" ("P").data.length) = "xyz" ∧
    ("Pxyz" : String) ≠ "xyz" :=
  ⟨by decide, rfl, by decide, by decide⟩

/-- C5 amended: the prompt-echo stripping (slicing off `len(prompt)` code
points and stripping whitespace) is applied only in the sequence response
shape; a single-object response's `generated_text` is returned verbatim,
prompt echo or not. -/
theorem hf_echo_handling :
    (∀ (token : Option String) (prompt full : String),
        tokenFalsy token = false → pyStartsWith full prompt = true →
        hf_complete token (NetOutcome.success (HFResponse.listShape full)) prompt
          = pyStrip (pyDrop full prompt.data.length)) ∧
    (∀ (token : Option String) (prompt full : String),
        tokenFalsy token = false →
        hf_complete token (NetOutcome.success (HFResponse.dictShape full)) prompt
          = full) := by
  constructor
  · intro token prompt full htok hpre
    simp [hf_complete, parseHFResponse, htok, hpre]
  · intro token prompt full htok
    simp [hf_complete, parseHFResponse, htok]

/-- C5 witness: the amended theorem applied to a concrete echoing list-shape
response and a concrete dict-shape response. -/
theorem hf_echo_handling_witness :
    hf_complete (some "tok") (NetOutcome.success (HFResponse.listShape "P hi")) "P" = "hi" ∧
    hf_complete (some "tok") (NetOutcome.success (HFResponse.dictShape "P hi")) "P" = "P hi" := by
  constructor
  · have h := hf_echo_handling.1 (some "tok") "P" "P hi" (by decide) (by decide)
    rw [h]; decide
  · exact hf_echo_handling.2 (some "tok") "P" "P hi" (by decide)

/-- C4 counterexample: a chat request with a well-formed user id whose user
record is absent fails with an unhandled `AttributeError` (the prompt
construction calls `.get` on `None`), even when the portfolio record is
present — the claim that `/chat` never fails when a record is absent is
false. -/
theorem chat_absent_user_fails :
    chat true none (some demoHoldings) none NetOutcome.failure "hi"
      = Except.error ApiError.attributeError := rfl

/-- C4 amended: with a valid user id, an absent portfolio record is indeed
replaced by a synthesized empty-holdings portfolio and the request succeeds
with a string reply; but an absent user record makes the request fail with an
unhandled `AttributeError`. -/
theorem chat_absent_records :
    (∀ (u : UserDoc) (token : Option String) (net : NetOutcome) (msg : String),
        chat true (some u) none token net msg
          = chat true (some u) (some []) token net msg ∧
        ∃ r : String, chat true (some u) none token net msg = Except.ok r) ∧
    (∀ (pdoc : Option (List Holding)) (token : Option String) (net : NetOutcome)
        (msg : String),
        chat true none pdoc token net msg = Except.error ApiError.attributeError) := by
  refine ⟨fun u token net msg => ⟨rfl, ⟨_, rfl⟩⟩, fun pdoc token net msg => ?_⟩
  cases pdoc <;> rfl

/-- C4 witness: the amended theorem applied at concrete inputs. -/
theorem chat_absent_records_witness :
    (∃ r : String, chat true (some demoUser) none none NetOutcome.failure "hi"
        = Except.ok r) ∧
    chat true none none none NetOutcome.failure "hi"
      = Except.error ApiError.attributeError :=
  ⟨(chat_absent_records.1 demoUser none NetOutcome.failure "hi").2,
   chat_absent_records.2 none none NetOutcome.failure "hi"⟩

/-- C1: with positive total cost the summarizer's sector allocation is exactly
the spec's grouping — holdings grouped by sector, missing or empty sector
mapped to the literal `"Other"`, each sector allocated
`round(sector_total / total_cost * 100, 2)` — and the spec's two-holding
scenario yields total cost 2500, allocation Tech 60.0 / Bonds 40.0, and
holdings count 2. -/
theorem sector_allocation_grouping :
    (∀ hs : List Holding, 0 < rawTotalCost hs →
        (summarize_portfolio hs).sector_allocation = sectorAllocationSpec hs) ∧
    (∀ hd : Holding, hd.sector = none ∨ hd.sector = some "" →
        hd.sectorKey = "Other") ∧
    rawTotalCost demoHoldings = 2500 ∧
    (summarize_portfolio demoHoldings).sector_allocation
      = [("Tech", 60), ("Bonds", 40)] ∧
    (summarize_portfolio demoHoldings).holdings_count = 2 := by
  have hraw : rawTotalCost demoHoldings = 2500 := by
    simp [rawTotalCost, demoHoldings, Holding.value]
    norm_num
  have htot : totalCostOr1 demoHoldings = 2500 := by
    rw [totalCostOr1_of_pos _ (by rw [hraw]; norm_num), hraw]
  have hby : bySector demoHoldings = [("Tech", 1500), ("Bonds", 1000)] := by
    simp [bySector, demoHoldings, upsertAdd, Holding.sectorKey, Holding.value]
    norm_num
  have h60 : pyRound2 ((1500 : ℚ) / 2500 * 100) = 60 := by
    have h : ((1500 : ℚ) / 2500 * 100) = ((60 : ℕ) : ℚ) := by norm_num
    rw [h, pyRound2_natCast]; norm_num
  have h40 : pyRound2 ((1000 : ℚ) / 2500 * 100) = 40 := by
    have h : ((1000 : ℚ) / 2500 * 100) = ((40 : ℕ) : ℚ) := by norm_num
    rw [h, pyRound2_natCast]; norm_num
  refine ⟨?_, ?_, hraw, ?_, rfl⟩
  · intro hs h
    simp [summarize_portfolio, sectorAllocationSpec, totalCostOr1_of_pos hs h]
  · intro hd h
    rcases h with h | h <;> simp [Holding.sectorKey, h]
  · rw [show (summarize_portfolio demoHoldings).sector_allocation
        = (bySector demoHoldings).map
            (fun kv => (kv.1, pyRound2 (kv.2 / totalCostOr1 demoHoldings * 100)))
        from rfl]
    rw [hby, htot]
    simp [h60, h40]

/-- C1 witness: the grouping equation applied to the scenario input, whose
total cost is positive. -/
theorem sector_allocation_grouping_witness :
    (summarize_portfolio demoHoldings).sector_allocation
      = sectorAllocationSpec demoHoldings :=
  sector_allocation_grouping.1 demoHoldings
    (by simp [rawTotalCost, demoHoldings, Holding.value]; norm_num)

/-- Rounding each entry of a list moves its sum by at most `1/200` per
entry. -/
theorem abs_sum_map_pyRound2 (l : List ℚ) :
    |(l.map pyRound2).sum - l.sum| ≤ (l.length : ℚ) / 200 := by
  induction l with
  | nil => simp
  | cons a t ih =>
      have h1 := abs_pyRound2_sub_le a
      have key : |(pyRound2 a + (t.map pyRound2).sum) - (a + t.sum)|
          ≤ |pyRound2 a - a| + |(t.map pyRound2).sum - t.sum| := by
        have h : (pyRound2 a + (t.map pyRound2).sum) - (a + t.sum)
            = (pyRound2 a - a) + ((t.map pyRound2).sum - t.sum) := by ring
        rw [h]; exact abs_add _ _
      simp only [List.map_cons, List.sum_cons, List.length_cons]
      push_cast
      calc |(pyRound2 a + (t.map pyRound2).sum) - (a + t.sum)|
          ≤ |pyRound2 a - a| + |(t.map pyRound2).sum - t.sum| := key
        _ ≤ 1/200 + (t.length : ℚ)/200 := add_le_add h1 ih
        _ = ((t.length : ℚ) + 1)/200 := by ring

/-- Summing after dividing by `T` and scaling by 100 scales the sum. -/
theorem sum_map_div_mul (l : List ℚ) (T : ℚ) :
    (l.map (fun x => x / T * 100)).sum = l.sum / T * 100 := by
  induction l with
  | nil => simp
  | cons a t ih => simp [ih]; ring

/-- C7: with strictly positive total cost the sector allocation values sum to
100 up to the rounding tolerance — at most `1/200` (half of the last kept
decimal place) per sector. -/
theorem sector_allocation_sum_near_100 (hs : List Holding)
    (h : 0 < rawTotalCost hs) :
    |((summarize_portfolio hs).sector_allocation.map Prod.snd).sum - 100|
      ≤ ((summarize_portfolio hs).sector_allocation.length : ℚ) / 200 := by
  have htot := totalCostOr1_of_pos hs h
  have halloc : (summarize_portfolio hs).sector_allocation
      = (bySector hs).map
          (fun kv => (kv.1, pyRound2 (kv.2 / rawTotalCost hs * 100))) := by
    simp [summarize_portfolio, htot]
  have hsnd : (summarize_portfolio hs).sector_allocation.map Prod.snd
      = (((bySector hs).map Prod.snd).map
          (fun x => x / rawTotalCost hs * 100)).map pyRound2 := by
    rw [halloc]; simp only [List.map_map]; rfl
  have hlen : (summarize_portfolio hs).sector_allocation.length
      = (((bySector hs).map Prod.snd).map
          (fun x => x / rawTotalCost hs * 100)).length := by
    rw [halloc]; simp
  have hsum : (((bySector hs).map Prod.snd).map
      (fun x => x / rawTotalCost hs * 100)).sum = 100 := by
    rw [sum_map_div_mul, sum_snd_bySector, div_self (ne_of_gt h), one_mul]
  rw [hsnd, hlen]
  have hfin := abs_sum_map_pyRound2
    (((bySector hs).map Prod.snd).map (fun x => x / rawTotalCost hs * 100))
  rw [hsum] at hfin
  exact hfin

/-- C7 witness: the bound applied to the scenario input. -/
theorem sector_allocation_sum_near_100_witness :
    |((summarize_portfolio demoHoldings).sector_allocation.map Prod.snd).sum - 100|
      ≤ ((summarize_portfolio demoHoldings).sector_allocation.length : ℚ) / 200 :=
  sector_allocation_sum_near_100 demoHoldings
    (by simp [rawTotalCost, demoHoldings, Holding.value]; norm_num)

/-- C2: `top_positions` is the 5-element truncation of the stable descending
sort of the per-holding `(symbol, weight)` entries: its length is
`min 5 holdings_count`, it is sorted by weight descending, every entry comes
from the per-holding weight map, and the sort is stable — for each weight the
entries of that weight appear exactly in input order. -/
theorem top_positions_spec (hs : List Holding) :
    (summarize_portfolio hs).top_positions.length = min 5 hs.length ∧
    (summarize_portfolio hs).top_positions
      = (sortDesc (positionList hs (totalCostOr1 hs))).take 5 ∧
    (summarize_portfolio hs).top_positions.Pairwise WeightGE ∧
    (summarize_portfolio hs).top_positions ⊆ positionList hs (totalCostOr1 hs) ∧
    (∀ w : ℚ,
        (sortDesc (positionList hs (totalCostOr1 hs))).filter (fun p => p.weight = w)
          = (positionList hs (totalCostOr1 hs)).filter (fun p => p.weight = w)) := by
  have htop : (summarize_portfolio hs).top_positions
      = (sortDesc (positionList hs (totalCostOr1 hs))).take 5 := rfl
  refine ⟨?_, htop, ?_, ?_, fun w => filter_sortDesc _ w⟩
  · rw [htop, List.length_take, length_sortDesc]
    simp [positionList]
  · rw [htop]
    exact (pairwise_sortDesc _).sublist (List.take_sublist 5 _)
  · rw [htop]
    intro p hp
    exact (sortDesc_perm _).mem_iff.mp ((List.take_sublist 5 _).subset hp)

/-- C2 witness: the length equation applied to the scenario input. -/
theorem top_positions_spec_witness :
    (summarize_portfolio demoHoldings).top_positions.length
      = min 5 demoHoldings.length :=
  (top_positions_spec demoHoldings).1

/-- The chat fallback reply starts with the character `B`. -/
theorem chatFallback_data : ∃ t, chatFallback.data = 'B' :: t := by
  have h : chatFallback.data
      = (("Based on your profile, focus on staying diversified, rebalancing on a set schedule, "
          ++ "and sizing positions according to your risk tolerance. Consider tax-advantaged accounts ")
          ++ "for long-term goals. I’m not a financial advisor; this is educational information.").data := rfl
  rw [data_append_eq, data_append_eq] at h
  have hlit : ("Based on your profile, focus on staying diversified, rebalancing on a set schedule, ").data
      = 'B' :: ("ased on your profile, focus on staying diversified, rebalancing on a set schedule, ").data := rfl
  rw [hlit, List.cons_append, List.cons_append] at h
  exact ⟨_, h⟩

/-- C3 counterexample: when the LLM yields no text, the chat flow does not
return the Heuristic Advisor's result — it returns the fixed disclaimer reply,
which differs from the heuristic advice for the scenario user and
portfolio. -/
theorem chat_fallback_not_heuristic :
    chat true (some demoUser) (some demoHoldings) none NetOutcome.failure "hi"
      = Except.ok chatFallback ∧
    chatFallback ≠ heuristic_advice demoUser demoHoldings := by
  refine ⟨rfl, ?_⟩
  intro h
  obtain ⟨t, ht⟩ := heuristic_advice_data demoUser demoHoldings
  obtain ⟨tb, htb⟩ := chatFallback_data
  rw [h, ht] at htb
  exact absurd (List.cons.inj htb).1 (by decide)

/-- C3 amended: when the LLM client yields no usable text, the analyze flow
returns the Heuristic Advisor's result for that user and portfolio, while the
chat flow returns a fixed disclaimer reply that does not depend on the user or
portfolio. -/
theorem advice_fallback_on_empty_ai :
    (∀ (u : UserDoc) (hs : List Holding) (token : Option String) (net : NetOutcome),
        hf_complete token net (analyzeSysPrompt u (summarize_portfolio hs)) = "" →
        analyze (some u) (some hs) token net
          = Except.ok (summarize_portfolio hs, heuristic_advice u hs)) ∧
    (∀ (u : UserDoc) (pdoc : Option (List Holding)) (token : Option String)
        (net : NetOutcome) (msg : String),
        hf_complete token net
            (chatPrompt u (summarize_portfolio (pdoc.getD [])) msg) = "" →
        chat true (some u) pdoc token net msg = Except.ok chatFallback) := by
  constructor
  · intro u hs token net h
    simp [analyze, h]
  · intro u pdoc token net msg h
    simp [chat, h]

/-- C3 witness: the amended theorem applied with no credential configured, so
the LLM client certainly yields the empty string. -/
theorem advice_fallback_on_empty_ai_witness :
    analyze (some demoUser) (some demoHoldings) none NetOutcome.failure
      = Except.ok (summarize_portfolio demoHoldings,
          heuristic_advice demoUser demoHoldings) ∧
    chat true (some demoUser) none none NetOutcome.failure "hello"
      = Except.ok chatFallback :=
  ⟨advice_fallback_on_empty_ai.1 demoUser demoHoldings none NetOutcome.failure rfl,
   advice_fallback_on_empty_ai.2 demoUser none none NetOutcome.failure "hello" rfl⟩

/-- C6: the advice text contains exactly one risk-alignment paragraph — the
filter of the advice lines down to the three fixed paragraphs is the
singleton of the paragraph selected by `risk_tolerance` (conservative →
bonds/cash buffer, balanced → 60/40 mix, anything else → equities/
alternatives). -/
theorem risk_alignment_exactly_one (u : UserDoc) (hs : List Holding) :
    heuristic_advice u hs = pyJoin "\n" (heuristic_advice_lines u hs) ∧
    (heuristic_advice_lines u hs).filter (fun l => decide (l ∈ riskParagraphs))
      = [riskPara (u.risk_tolerance.getD "balanced")] := by
  refine ⟨rfl, ?_⟩
  have hnot : ∀ w : ℚ, headerLine w ∉ riskParagraphs := by
    intro w hmem
    simp only [riskParagraphs, List.mem_cons, List.not_mem_nil, or_false] at hmem
    rcases hmem with h | h | h
    · exact headerLine_ne_of_dash w conservativePara rfl h
    · exact headerLine_ne_of_dash w balancedPara rfl h
    · exact headerLine_ne_of_dash w aggressivePara rfl h
  have hrp : riskPara (u.risk_tolerance.getD "balanced") ∈ riskParagraphs := by
    simp only [riskPara]
    split_ifs <;> simp [riskParagraphs]
  simp only [heuristic_advice_lines]
  cases htop : (summarize_portfolio hs).top_positions with
  | nil =>
      by_cases h4 : (summarize_portfolio hs).sector_allocation.length < 4 <;>
      simp [h4, List.filter_append, List.filter_cons, hnot, hrp,
        (by decide : "Diversification:" ∉ riskParagraphs),
        (by decide : fewSectorsLine ∉ riskParagraphs),
        (by decide : diversifiedLine ∉ riskParagraphs),
        (by decide : "Risk alignment:" ∉ riskParagraphs),
        (by decide : "Next steps:" ∉ riskParagraphs),
        (by decide : nextStepsLine1 ∉ riskParagraphs),
        (by decide : nextStepsLine2 ∉ riskParagraphs)]
  | cons t0 ts =>
      by_cases h25 : 25 < t0.weight <;>
      by_cases h4 : (summarize_portfolio hs).sector_allocation.length < 4 <;>
      simp [h25, h4, List.filter_append, List.filter_cons, hnot, hrp,
        (by decide : "Diversification:" ∉ riskParagraphs),
        (by decide : fewSectorsLine ∉ riskParagraphs),
        (by decide : diversifiedLine ∉ riskParagraphs),
        (by decide : trimmingLine ∉ riskParagraphs),
        (by decide : "Risk alignment:" ∉ riskParagraphs),
        (by decide : "Next steps:" ∉ riskParagraphs),
        (by decide : nextStepsLine1 ∉ riskParagraphs),
        (by decide : nextStepsLine2 ∉ riskParagraphs)]

/-- C6 witness: the filter equation applied to a concrete user and
portfolio. -/
theorem risk_alignment_exactly_one_witness :
    (heuristic_advice_lines demoUser demoHoldings).filter
        (fun l => decide (l ∈ riskParagraphs))
      = [riskPara (demoUser.risk_tolerance.getD "balanced")] :=
  (risk_alignment_exactly_one demoUser demoHoldings).2

end RoboAdvisory
